import Mathlib

/-!
Shallow embedding of the event-sourced document repository of the
`firestore-generator` package (`src/events.ts`, `src/repository.ts`,
`src/utils.ts`, `src/generator.ts`, `src/types.ts`).

JavaScript objects are modelled as ordered association lists of
string-keyed values; object spread (`{...a, ...b}`) is modelled by
`mergeObj`, which overwrites existing keys in place and appends new ones,
exactly as JS spread does.  All event kinds share one physical event
collection (`{name}_events` in `generator.ts`), so the event log store is
a single `List Event`; the Firestore query
`where('entityId','==',id), orderBy('clientTimestamp')` becomes a filter
followed by a stable merge sort on `clientTimestamp` (JS `Array.sort` is
stable, as is `List.mergeSort`).
-/

namespace WebShell

/-- A JavaScript runtime value, as stored in Firestore documents.
`vTimestamp` is the storage engine's native timestamp; `vDate` is the
portable in-process date (both carry epoch milliseconds). -/
inductive Value where
  | vNull : Value
  | vBool : Bool → Value
  | vInt : Int → Value
  | vStr : String → Value
  | vDate : Int → Value
  | vTimestamp : Int → Value
  | vArr : List Value → Value
  | vObj : List (String × Value) → Value

/-- A JavaScript object: an ordered list of key/value fields. -/
abbrev Obj := List (String × Value)

/-- Assignment of one key, with JS semantics: an existing key keeps its
position and gets the new value; a new key is appended at the end. -/
def setKey (o : Obj) (k : String) (v : Value) : Obj :=
  if o.any (fun kv => kv.1 = k) then
    o.map (fun kv => if kv.1 = k then (k, v) else kv)
  else
    o ++ [(k, v)]

/-- JS object spread `{...a, ...b}`: every field of `b`, in order,
is assigned into `a`. -/
def mergeObj (a b : Obj) : Obj :=
  b.foldl (fun acc kv => setKey acc kv.1 kv.2) a

/-- Field lookup (`o.k` in JS): the first field with the given key. -/
def getKey (o : Obj) (k : String) : Option Value :=
  (o.find? (fun kv => kv.1 = k)).map (·.2)

/-- An event document (`EventDocument<T, E>` in `types.ts`):
`id` is the Firestore document id, `entityId` the entity the event
belongs to, `type` the event kind tag, `data` the payload,
`clientTimestamp` the writer-side timestamp (epoch ms, the ordering
key), `serverTimestamp` the commit-time timestamp (nullable). -/
structure Event where
  id : String
  entityId : String
  type : String
  data : Obj
  clientTimestamp : Int
  serverTimestamp : Option Int
  metadata : Obj := []

/-- The nullable server timestamp as a stored value. -/
def optDate : Option Int → Value
  | none => Value.vNull
  | some ms => Value.vDate ms

/-- Comparison used by both the Firestore `orderBy('clientTimestamp')`
and the explicit JS sort `(a, b) => a.clientTimestamp.getTime() -
b.clientTimestamp.getTime()` in `getLatestEntityState`. -/
def eventLe (a b : Event) : Bool :=
  a.clientTimestamp ≤ b.clientTimestamp

/-- Model of one `doc.data()` read through the event collection's
`withConverter` (`generator.ts` attaches `createEventConverter(schema)`
to every event collection; `utils.ts` lines 183-194): the event's
`data` payload is parsed by the declared schema — `parseData` may
transform the payload (a zod strip-mode object removes unknown keys
such as `changes` or `id`) or reject it, in which case the converter
throws.  The envelope fields (`id`, `entityId`, `type`, the two
timestamps, `metadata`) of an event this model can represent are
well-typed by construction, so their checks always succeed and the
non-passthrough envelope strip is the identity on them. -/
def readEvent (parseData : Obj → Option Obj) (e : Event) : Except String Event :=
  match parseData e.data with
  | some d => Except.ok { e with data := d }
  | none => Except.error "Event validation failed"

/-- Sequential converter reads of a fetched document list
(`querySnapshot.docs.map((doc) => doc.data())` in `events.ts` line 76
and `repository.ts` line 116): the first failing parse throws and the
error propagates. -/
def readEvents (parseData : Obj → Option Obj) :
    List Event → Except String (List Event)
  | [] => Except.ok []
  | e :: es =>
    match readEvent parseData e with
    | Except.error msg => Except.error msg
    | Except.ok e1 =>
      match readEvents parseData es with
      | Except.error msg => Except.error msg
      | Except.ok es1 => Except.ok (e1 :: es1)

/-- The read-side parse of a fully permissive declared schema (such as
`z.record(z.unknown())`, or a passthrough object with no required
field): every payload is accepted and returned unchanged. -/
def parseAny : Obj → Option Obj := fun o => some o

/-- The read-side parse of `z.object({a: z.number(), b: z.number()})` in
zod's default strip mode — the shape of the spec's `{a:..., b:...}`
scenarios, and representative of any plain object schema with required
fields, such as the application's `CommandSchema`: both declared fields
must be present with the right type, and every unknown key (the
`changes` key of an update payload, the `id` key of a delete payload)
is stripped from the result or causes outright rejection when the
required fields are absent. -/
def parseAB : Obj → Option Obj := fun o =>
  match getKey o "a", getKey o "b" with
  | some (Value.vInt x), some (Value.vInt y) =>
    some [("a", Value.vInt x), ("b", Value.vInt y)]
  | _, _ => none

/-- The write-side validity check (`schema.parse(data)` throwing or not)
induced by the same declared schema as a read-side parse. -/
def validOfParse (p : Obj → Option Obj) : Obj → Bool :=
  fun o => (p o).isSome

/-- Model of `getEntityEvents` (`events.ts` lines 64-77): query the event
collection for all events with the given `entityId`, ordered ascending
by `clientTimestamp`, then read each document through the collection's
converter (which parses its `data` against the declared schema).  The
store is modelled in insertion order; the stable sort models the
ordered query result. -/
def getEntityEvents (parseData : Obj → Option Obj) (store : List Event)
    (entityId : String) : Except String (List Event) :=
  readEvents parseData
    ((store.filter (fun e => e.entityId = entityId)).mergeSort eventLe)

/-- The `changes` field of an update payload object; spreading a
non-object (or a missing field) contributes no fields in JS, hence the
empty default. -/
def changesOfData (o : Obj) : Obj :=
  match getKey o "changes" with
  | some (Value.vObj fs) => fs
  | _ => []

/-- The `changes` field of an update event's payload
(`updateEvent.data.changes`). -/
def changesOf (e : Event) : Obj :=
  changesOfData e.data

/-- One step of the update loop in `getLatestEntityState`
(`events.ts` lines 116-124): `currentState = {...currentState,
...updateEvent.data.changes, clientTimestamp: updateEvent.clientTimestamp,
serverTimestamp: updateEvent.serverTimestamp}`. -/
def applyUpdate (st : Obj) (e : Event) : Obj :=
  mergeObj st (changesOf e ++
    [("clientTimestamp", Value.vDate e.clientTimestamp),
     ("serverTimestamp", optDate e.serverTimestamp)])

/-- The seed state of reconstruction (`events.ts` lines 103-109):
`{...createEvent.data, id: entityId, clientTimestamp:
createEvent.clientTimestamp, serverTimestamp: createEvent.serverTimestamp}`. -/
def seedState (c : Event) (entityId : String) : Obj :=
  mergeObj c.data
    [("id", Value.vStr entityId),
     ("clientTimestamp", Value.vDate c.clientTimestamp),
     ("serverTimestamp", optDate c.serverTimestamp)]

/-- The pure reconstruction fold of `getLatestEntityState`
(`events.ts` lines 93-132), applied to the already-fetched ordered
event sequence: empty → `none`; no `create` event → `none`; otherwise
seed from the first `create` event, apply all `update` events sorted by
`clientTimestamp`, and return `none` anyway if any `delete` event is
present. -/
def getLatestEntityStateL (events : List Event) (entityId : String) : Option Obj :=
  if events.isEmpty then none
  else
    match events.find? (fun e => e.type = "create") with
    | none => none
    | some createEvent =>
      let state0 := seedState createEvent entityId
      let updateEvents := (events.filter (fun e => e.type = "update")).mergeSort eventLe
      let finalState := updateEvents.foldl applyUpdate state0
      let wasDeleted := events.any (fun e => e.type = "delete")
      if wasDeleted then none else some finalState

/-- Model of `getLatestEntityState` (`events.ts` lines 86-133): fetch the
entity's ordered events — each read through the converter, whose parse
failure propagates — then run the reconstruction fold. -/
def getLatestEntityState (parseData : Obj → Option Obj) (store : List Event)
    (entityId : String) : Except String (Option Obj) :=
  match getEntityEvents parseData store entityId with
  | Except.error msg => Except.error msg
  | Except.ok events => Except.ok (getLatestEntityStateL events entityId)

/-- Model of `createEvent` (`events.ts` lines 35-55): append one event document
to the event collection.  The document id is assigned by the store and
irrelevant to reconstruction; the two timestamps are supplied by the
clock (`new Date()`) and the server sentinel resolution. -/
def createEvent (store : List Event) (entityId ty : String) (data : Obj)
    (now : Int) (sts : Option Int) : List Event :=
  store ++ [{ id := "", entityId := entityId, type := ty, data := data,
              clientTimestamp := now, serverTimestamp := sts }]

/-- Model of `createEntity` (`events.ts` lines 143-151): append a `create` event. -/
def createEntity (store : List Event) (data : Obj) (entityId : String)
    (now : Int) (sts : Option Int) : List Event :=
  createEvent store entityId "create" data now sts

/-- Model of `updateEntity` (`events.ts` lines 161-169): append an `update` event
whose payload is `{...currentData, changes}`. -/
def updateEntity (store : List Event) (entityId : String) (changes : Obj)
    (currentData : Obj) (now : Int) (sts : Option Int) : List Event :=
  createEvent store entityId "update"
    (mergeObj currentData [("changes", Value.vObj changes)]) now sts

/-- Model of `deleteEntity` (`events.ts` lines 177-183): append a `delete` event
carrying only `{id: entityId}`. -/
def deleteEntity (store : List Event) (entityId : String)
    (now : Int) (sts : Option Int) : List Event :=
  createEvent store entityId "delete" [("id", Value.vStr entityId)] now sts

/-- Errors surfaced by the repository facade (`repository.ts`):
write-side schema failure, missing entity, and the read-side converter
error that propagates unchanged through the facade. -/
inductive RepoError where
  | validationError : RepoError
  | notFoundError : String → RepoError
  | readError : String → RepoError
deriving DecidableEq

/-- Model of `findEntityById` (`repository.ts` lines 103-105). -/
def findEntityById (parseData : Obj → Option Obj) (store : List Event)
    (id : String) : Except String (Option Obj) :=
  getLatestEntityState parseData store id

/-- Model of `createNewEntity` (`repository.ts` lines 78-96): validate `data`
against the declared schema (modelled as the predicate `valid`), then
generate a fresh entity id (modelled as the parameter `entityId`,
standing for `uuidv4()`), append a `create` event and return the id.
On validation failure nothing is appended.  The returned pair is the
call's outcome together with the resulting event log. -/
def createNewEntity (valid : Obj → Bool) (store : List Event) (data : Obj)
    (entityId : String) (now : Int) (sts : Option Int) :
    Except RepoError String × List Event :=
  if valid data then
    (Except.ok entityId, createEntity store data entityId now sts)
  else
    (Except.error RepoError.validationError, store)

/-- Model of `updateEntityById` (`repository.ts` lines 136-146): reconstruct the
current state (a read-side converter failure propagates); if absent fail
with `NotFoundError` and append nothing, otherwise append an `update`
event. -/
def updateEntityById (parseData : Obj → Option Obj) (store : List Event)
    (id : String) (changes : Obj) (now : Int) (sts : Option Int) :
    Except RepoError Unit × List Event :=
  match findEntityById parseData store id with
  | Except.error msg => (Except.error (RepoError.readError msg), store)
  | Except.ok none => (Except.error (RepoError.notFoundError id), store)
  | Except.ok (some currentState) =>
    (Except.ok (), updateEntity store id changes currentState now sts)

/-- Model of `deleteEntityById` (`repository.ts` lines 152-162): reconstruct the
current state (a read-side converter failure propagates); if absent fail
with `NotFoundError` and append nothing, otherwise append a `delete`
event. -/
def deleteEntityById (parseData : Obj → Option Obj) (store : List Event)
    (id : String) (now : Int) (sts : Option Int) :
    Except RepoError Unit × List Event :=
  match findEntityById parseData store id with
  | Except.error msg => (Except.error (RepoError.readError msg), store)
  | Except.ok none => (Except.error (RepoError.notFoundError id), store)
  | Except.ok (some _) =>
    (Except.ok (), deleteEntity store id now sts)

/-- Model of `getEntityHistory` (`repository.ts` lines 169-171): passthrough to
`getEntityEvents`, converter reads included. -/
def getEntityHistory (parseData : Obj → Option Obj) (store : List Event)
    (id : String) : Except String (List Event) :=
  getEntityEvents parseData store id

/-- Model of `findAllEntities` (`repository.ts` lines 111-129): a bare query on
`createEventsCollection.ref(db)` — the whole `{name}_events` collection,
which holds events of every type (`generator.ts` gives all event kinds
the same collection name) — reads every event of the collection through
the entity-schema converter (throwing on the first failure), maps each
to its `entityId`, then reconstructs each id in turn, keeping non-null
results; a reconstruction failure also propagates. -/
def findAllEntities (parseData : Obj → Option Obj) (store : List Event) :
    Except String (List Obj) :=
  match readEvents parseData store with
  | Except.error msg => Except.error msg
  | Except.ok allEvents =>
    (allEvents.map (fun e => e.entityId)).foldl
      (fun acc id =>
        match acc with
        | Except.error msg => Except.error msg
        | Except.ok results =>
          match findEntityById parseData store id with
          | Except.error msg => Except.error msg
          | Except.ok (some entity) => Except.ok (results ++ [entity])
          | Except.ok none => Except.ok results)
      (Except.ok [])

/-- A schema that accepts every payload (used to instantiate the
validation predicate in concrete runs). -/
def validAny : Obj → Bool := fun _ => true

/-- A schema that rejects every payload. -/
def validNone : Obj → Bool := fun _ => false

/-- Concrete event sequence `[create, delete, update]` for entity `e1`,
with the update appended (and timestamped) after the delete. -/
def c2Events : List Event :=
  [{ id := "", entityId := "e1", type := "create",
     data := [("a", Value.vInt 1)], clientTimestamp := 1, serverTimestamp := none },
   { id := "", entityId := "e1", type := "delete",
     data := [("id", Value.vStr "e1")], clientTimestamp := 2, serverTimestamp := none },
   { id := "", entityId := "e1", type := "update",
     data := [("changes", Value.vObj [("a", Value.vInt 7)])],
     clientTimestamp := 3, serverTimestamp := none }]

/-- Concrete run of the facade under a fully permissive schema: create
`{a:1, b:2}`, update `{a:5}`, update `{b:9}`, ascending client
timestamps. -/
def c4Store : List Event :=
  (updateEntityById parseAny
    (updateEntityById parseAny
      (createNewEntity validAny [] [("a", Value.vInt 1), ("b", Value.vInt 2)]
        "e1" 1 none).2
      "e1" [("a", Value.vInt 5)] 2 none).2
    "e1" [("b", Value.vInt 9)] 3 none).2

/-- The same facade run under the strip-mode object schema
`z.object({a: z.number(), b: z.number()})` on both the write and the
read side. -/
def c4StoreStrict : List Event :=
  (updateEntityById parseAB
    (updateEntityById parseAB
      (createNewEntity (validOfParse parseAB) []
        [("a", Value.vInt 1), ("b", Value.vInt 2)] "e1" 1 none).2
      "e1" [("a", Value.vInt 5)] 2 none).2
    "e1" [("b", Value.vInt 9)] 3 none).2

/-- Concrete event sequence `[create {a:1, b:2}, delete]` for entity
`e1`, whose create payload satisfies the `parseAB` schema while the
delete payload `{id}` does not. -/
def c2bStore : List Event :=
  [{ id := "", entityId := "e1", type := "create",
     data := [("a", Value.vInt 1), ("b", Value.vInt 2)],
     clientTimestamp := 1, serverTimestamp := none },
   { id := "", entityId := "e1", type := "delete",
     data := [("id", Value.vStr "e1")], clientTimestamp := 2,
     serverTimestamp := none }]

/-- Concrete event sequence where an update's `changes` object carries an
`id` field: `create` with empty data, then an update whose changes are
`{id: "rogue"}`. -/
def c9Store : List Event :=
  [{ id := "", entityId := "e1", type := "create",
     data := [], clientTimestamp := 1, serverTimestamp := none },
   { id := "", entityId := "e1", type := "update",
     data := [("changes", Value.vObj [("id", Value.vStr "rogue")])],
     clientTimestamp := 2, serverTimestamp := none }]

/-- Concrete event sequence: create `{a:1}`, then update with changes
`{a:5}` (no `id` field in any changes object). -/
def c9wStore : List Event :=
  [{ id := "", entityId := "e1", type := "create",
     data := [("a", Value.vInt 1)], clientTimestamp := 1, serverTimestamp := none },
   { id := "", entityId := "e1", type := "update",
     data := [("changes", Value.vObj [("a", Value.vInt 5)])],
     clientTimestamp := 2, serverTimestamp := none }]

/-- Concrete store with one `create` and one `update` event for the same
single entity. -/
def c10Store : List Event :=
  [{ id := "", entityId := "e1", type := "create",
     data := [("a", Value.vInt 1)], clientTimestamp := 1, serverTimestamp := none },
   { id := "", entityId := "e1", type := "update",
     data := [("changes", Value.vObj [])], clientTimestamp := 2, serverTimestamp := none }]

/-- Modelled from the spec (claim C1, spec section 4.3 steps 1-4): find
the first event of type `create` (none → absent); seed the state with
that event's data plus `id = entityId` and the create event's two
timestamp fields; then take every `update` event of the entire sequence
in ascending `clientTimestamp` order and, for each in order,
shallow-merge `event.data.changes` into the state and overwrite the
state's two timestamp fields with the update event's own timestamps.
Step 5 (the delete tombstone) is claim C2's concern and is not part of
this description. -/
def specStateReconstruction (events : List Event) (entityId : String) :
    Option Obj :=
  match events.find? (fun e => e.type = "create") with
  | none => none
  | some c =>
    let seed := mergeObj c.data
      [("id", Value.vStr entityId),
       ("clientTimestamp", Value.vDate c.clientTimestamp),
       ("serverTimestamp", optDate c.serverTimestamp)]
    let updates := (events.filter (fun e => e.type = "update")).mergeSort eventLe
    some (updates.foldl
      (fun st e => mergeObj (mergeObj st (changesOf e))
        [("clientTimestamp", Value.vDate e.clientTimestamp),
         ("serverTimestamp", optDate e.serverTimestamp)]) seed)

/-- Concrete ordered sequence for the C1 witness: a `create` followed by
one `update`, no delete. -/
def c1Events : List Event :=
  [{ id := "", entityId := "e1", type := "create",
     data := [("a", Value.vInt 1)], clientTimestamp := 1, serverTimestamp := none },
   { id := "", entityId := "e1", type := "update",
     data := [("changes", Value.vObj [("a", Value.vInt 3)])],
     clientTimestamp := 2, serverTimestamp := some 7 }]

/-- One facade write call, as issued by a caller: the payload carries the
clock reading (`new Date()`) and the resolved server timestamp of the
call, and `createOp` carries the generated fresh id (`uuidv4()`). -/
inductive WriteOp where
  | createOp : Obj → String → Int → Option Int → WriteOp
  | updateOp : String → Obj → Int → Option Int → WriteOp
  | deleteOp : String → Int → Option Int → WriteOp

/-- The entity id a write call targets (for `create`, the generated id). -/
def opTargetId : WriteOp → String
  | WriteOp.createOp _ newId _ _ => newId
  | WriteOp.updateOp id _ _ _ => id
  | WriteOp.deleteOp id _ _ => id

/-- The event type tag the operation writes on success. -/
def opType : WriteOp → String
  | WriteOp.createOp _ _ _ _ => "create"
  | WriteOp.updateOp _ _ _ _ => "update"
  | WriteOp.deleteOp _ _ _ => "delete"

/-- The client timestamp the operation stamps on its event. -/
def opNow : WriteOp → Int
  | WriteOp.createOp _ _ now _ => now
  | WriteOp.updateOp _ _ now _ => now
  | WriteOp.deleteOp _ now _ => now

/-- Run one facade write call against the event log (writes that first
reconstruct use the declared schema's read-side parse). -/
def runOp (valid : Obj → Bool) (parseData : Obj → Option Obj)
    (store : List Event) : WriteOp → Except RepoError (List Event)
  | WriteOp.createOp data newId now sts =>
    match createNewEntity valid store data newId now sts with
    | (Except.ok _, s) => Except.ok s
    | (Except.error err, _) => Except.error err
  | WriteOp.updateOp id changes now sts =>
    match updateEntityById parseData store id changes now sts with
    | (Except.ok _, s) => Except.ok s
    | (Except.error err, _) => Except.error err
  | WriteOp.deleteOp id now sts =>
    match deleteEntityById parseData store id now sts with
    | (Except.ok _, s) => Except.ok s
    | (Except.error err, _) => Except.error err

/-- Run a sequence of facade write calls, stopping at the first failure. -/
def runOps (valid : Obj → Bool) (parseData : Obj → Option Obj)
    (store : List Event) : List WriteOp → Except RepoError (List Event)
  | [] => Except.ok store
  | op :: ops =>
    match runOp valid parseData store op with
    | Except.ok s => runOps valid parseData s ops
    | Except.error err => Except.error err

/-- Concrete write sequence: create `{a:1, b:2}`, update `{a:2}` and
delete against one entity, with ascending clock readings. -/
def c7Ops : List WriteOp :=
  [WriteOp.createOp [("a", Value.vInt 1), ("b", Value.vInt 2)] "e1" 1 none,
   WriteOp.updateOp "e1" [("a", Value.vInt 2)] 2 none,
   WriteOp.deleteOp "e1" 3 none]

/-- The event log produced by running `c7Ops` on the empty log under the
fully permissive schema. -/
def c7Final : List Event :=
  [{ id := "", entityId := "e1", type := "create",
     data := [("a", Value.vInt 1), ("b", Value.vInt 2)],
     clientTimestamp := 1, serverTimestamp := none },
   { id := "", entityId := "e1", type := "update",
     data := [("a", Value.vInt 1), ("b", Value.vInt 2), ("id", Value.vStr "e1"),
              ("clientTimestamp", Value.vDate 1), ("serverTimestamp", Value.vNull),
              ("changes", Value.vObj [("a", Value.vInt 2)])],
     clientTimestamp := 2, serverTimestamp := none },
   { id := "", entityId := "e1", type := "delete",
     data := [("id", Value.vStr "e1")], clientTimestamp := 3, serverTimestamp := none }]


/-- A `create` event (data `{a:1}`) used by the C10 witness. -/
def cA : Event :=
  { id := "", entityId := "e1", type := "create",
    data := [("a", Value.vInt 1)], clientTimestamp := 1, serverTimestamp := none }

/-- A second `create` event for the same entity (data `{a:2}`), used by
the C10 witness. -/
def cB : Event :=
  { id := "", entityId := "e1", type := "create",
    data := [("a", Value.vInt 2)], clientTimestamp := 2, serverTimestamp := none }

mutual

/-- The recursive `convertTimestamps` helper shared by both converters
(`utils.ts` lines 64-85 and 149-170): every storage-native timestamp,
however deeply nested in arrays or objects, becomes a portable date;
primitives pass through and containers are rebuilt. -/
def convertTimestamps : Value → Value
  | Value.vTimestamp ms => Value.vDate ms
  | Value.vArr xs => Value.vArr (convertTimestampsList xs)
  | Value.vObj fs => Value.vObj (convertTimestampsFields fs)
  | Value.vNull => Value.vNull
  | Value.vBool b => Value.vBool b
  | Value.vInt n => Value.vInt n
  | Value.vStr s => Value.vStr s
  | Value.vDate d => Value.vDate d

/-- Elementwise `convertTimestamps` over an array's entries. -/
def convertTimestampsList : List Value → List Value
  | [] => []
  | x :: xs => convertTimestamps x :: convertTimestampsList xs

/-- Elementwise `convertTimestamps` over an object's fields. -/
def convertTimestampsFields : List (String × Value) → List (String × Value)
  | [] => []
  | (k, v) :: fs => (k, convertTimestamps v) :: convertTimestampsFields fs

end

mutual

/-- Whether a storage-native timestamp occurs anywhere in a value. -/
def hasTimestamp : Value → Bool
  | Value.vTimestamp _ => true
  | Value.vArr xs => hasTimestampList xs
  | Value.vObj fs => hasTimestampFields fs
  | Value.vNull => false
  | Value.vBool _ => false
  | Value.vInt _ => false
  | Value.vStr _ => false
  | Value.vDate _ => false

/-- Whether a storage-native timestamp occurs in any array entry. -/
def hasTimestampList : List Value → Bool
  | [] => false
  | x :: xs => hasTimestamp x || hasTimestampList xs

/-- Whether a storage-native timestamp occurs in any object field. -/
def hasTimestampFields : List (String × Value) → Bool
  | [] => false
  | (_, v) :: fs => hasTimestamp v || hasTimestampFields fs

end

/-- Acceptance of `z.string()` on a possibly-missing field. -/
def isStrV : Option Value → Bool
  | some (Value.vStr _) => true
  | _ => false

/-- Acceptance of `z.date()` on a possibly-missing field. -/
def isDateV : Option Value → Bool
  | some (Value.vDate _) => true
  | _ => false

/-- Acceptance of `z.date().nullable()` on a possibly-missing field. -/
def isNullableDateV : Option Value → Bool
  | some Value.vNull => true
  | some (Value.vDate _) => true
  | _ => false

/-- The `cleanedData` record built by both `fromFirestore`
implementations (`utils.ts` lines 88-93 and 173-179):
`{...convertTimestamps(snapshot.data()), id: snapshot.id}`. -/
def cleanedRecord (raw : Obj) (docId : String) : Obj :=
  setKey (convertTimestampsFields raw) "id" (Value.vStr docId)

/-- Model of `createConverter(schema).fromFirestore` (`utils.ts` lines
56-116): convert nested timestamps, merge in the document id, then parse
with `z.object({id: z.string(), serverTimestamp: z.date().nullable(),
clientTimestamp: z.date()}).passthrough()`.  Note that the source builds
this envelope schema from scratch and never consults the declared
schema ("Remaining fields from T will be handled via any"), which is why
the `schemaValid` parameter of the closure goes unused here, exactly as
in the source; a passthrough parse returns the record with all its
fields. -/
def fromFirestoreDoc (schemaValid : Obj → Bool) (raw : Obj) (docId : String) :
    Except String Obj :=
  if isStrV (getKey (cleanedRecord raw docId) "id") &&
     isNullableDateV (getKey (cleanedRecord raw docId) "serverTimestamp") &&
     isDateV (getKey (cleanedRecord raw docId) "clientTimestamp") then
    Except.ok (cleanedRecord raw docId)
  else
    Except.error "Document validation failed"

/-- Model of `createEventConverter(schema).fromFirestore` (`utils.ts`
lines 141-201): convert nested timestamps, merge in the document id,
then parse with `z.object({id: z.string(), entityId: z.string(),
type: z.string(), data: schema, serverTimestamp: z.date().nullable(),
clientTimestamp: z.date(), metadata: z.record(z.unknown()).optional()})`;
the `data` field goes through the declared schema's own parse
(`parseData`, which may transform or reject), and a non-passthrough
object parse returns exactly the declared fields in shape order. -/
def fromFirestoreEvent (parseData : Value → Option Value) (raw : Obj)
    (docId : String) : Except String Obj :=
  match getKey (cleanedRecord raw docId) "id",
      getKey (cleanedRecord raw docId) "entityId",
      getKey (cleanedRecord raw docId) "type",
      (getKey (cleanedRecord raw docId) "data").bind parseData,
      getKey (cleanedRecord raw docId) "serverTimestamp",
      getKey (cleanedRecord raw docId) "clientTimestamp" with
  | some (Value.vStr i), some (Value.vStr eid), some (Value.vStr ty), some d,
    some sv, some (Value.vDate ct) =>
    if isNullableDateV (some sv) then
      match getKey (cleanedRecord raw docId) "metadata" with
      | none =>
        Except.ok [("id", Value.vStr i), ("entityId", Value.vStr eid),
                   ("type", Value.vStr ty), ("data", d), ("serverTimestamp", sv),
                   ("clientTimestamp", Value.vDate ct)]
      | some (Value.vObj md) =>
        Except.ok [("id", Value.vStr i), ("entityId", Value.vStr eid),
                   ("type", Value.vStr ty), ("data", d), ("serverTimestamp", sv),
                   ("clientTimestamp", Value.vDate ct), ("metadata", Value.vObj md)]
      | some _ => Except.error "Event validation failed"
    else
      Except.error "Event validation failed"
  | _, _, _, _, _, _ => Except.error "Event validation failed"

/-- A declared schema requiring a string field `name` (the validity
predicate of `z.object({name: z.string()})` on the record's own
fields). -/
def requiresName : Obj → Bool := fun o => isStrV (getKey o "name")

/-- A raw stored record with only the two timestamp envelope fields and
none of the declared schema's fields. -/
def c8Raw : Obj :=
  [("serverTimestamp", Value.vNull), ("clientTimestamp", Value.vTimestamp 5)]

/-! Basic lemmas about field assignment, spread and lookup. -/

theorem map_overwrite_id {k : String} {v : Value} {o : Obj}
    (h : ∀ kv ∈ o, ¬(kv.1 = k)) :
    o.map (fun kv => if kv.1 = k then (k, v) else kv) = o := by
  induction o with
  | nil => rfl
  | cons kv o ih =>
    rw [List.map_cons, if_neg (h kv (by simp)), ih]
    intro kv' h1
    exact h kv' (by simp [h1])

theorem map_eq_setKey_of_any {k : String} {v : Value} {o : Obj}
    (ho : o.any (fun kv => kv.1 = k) = true) :
    o.map (fun kv => if kv.1 = k then (k, v) else kv) = setKey o k v := by
  unfold setKey
  rw [if_pos ho]

theorem setKey_cons_ne {kv : String × Value} {k : String} (h : ¬(kv.1 = k))
    (o : Obj) (v : Value) : setKey (kv :: o) k v = kv :: setKey o k v := by
  unfold setKey
  have hp : decide (kv.1 = k) = false := by simp [h]
  rw [List.any_cons, hp, Bool.false_or]
  by_cases ho : o.any (fun kv => decide (kv.1 = k)) = true
  · rw [if_pos ho, if_pos ho, List.map_cons, if_neg h]
  · rw [if_neg ho, if_neg ho, List.cons_append]

theorem setKey_cons_eq {kv : String × Value} {k : String} (h : kv.1 = k)
    (o : Obj) (v : Value) :
    setKey (kv :: o) k v =
      (k, v) :: (o.map (fun kv => if kv.1 = k then (k, v) else kv)) := by
  unfold setKey
  have hp : decide (kv.1 = k) = true := by simp [h]
  rw [List.any_cons, hp, Bool.true_or, if_pos rfl, List.map_cons, if_pos h]

theorem getKey_cons (kv : String × Value) (o : Obj) (k : String) :
    getKey (kv :: o) k = if kv.1 = k then some kv.2 else getKey o k := by
  by_cases h : kv.1 = k <;> simp [getKey, List.find?_cons, h]

theorem getKey_setKey_self (k : String) (v : Value) (o : Obj) :
    getKey (setKey o k v) k = some v := by
  induction o with
  | nil => simp [setKey, getKey]
  | cons kv o ih =>
    by_cases h : kv.1 = k
    · rw [setKey_cons_eq h, getKey_cons]
      simp
    · rw [setKey_cons_ne h, getKey_cons, if_neg h]
      exact ih

theorem getKey_setKey_ne {k' k : String} (h : ¬(k' = k)) (v : Value) (o : Obj) :
    getKey (setKey o k v) k' = getKey o k' := by
  have h' : ¬(k = k') := fun hk => h hk.symm
  induction o with
  | nil =>
    simp [setKey, getKey, List.find?_cons, h']
  | cons kv o ih =>
    by_cases hk : kv.1 = k
    · rw [setKey_cons_eq hk, getKey_cons]
      simp only [if_neg h']
      have hkv : ¬(kv.1 = k') := by rw [hk]; exact h'
      by_cases ho : o.any (fun kv => kv.1 = k) = true
      · rw [map_eq_setKey_of_any ho, ih, getKey_cons, if_neg hkv]
      · rw [map_overwrite_id, getKey_cons, if_neg hkv]
        intro kv' h1 h2
        exact ho (List.any_eq_true.mpr ⟨kv', h1, by simp [h2]⟩)
    · rw [setKey_cons_ne hk, getKey_cons, getKey_cons, ih]

theorem mergeObj_nil (a : Obj) : mergeObj a [] = a := rfl

theorem mergeObj_cons (a : Obj) (k : String) (v : Value) (b : Obj) :
    mergeObj a ((k, v) :: b) = mergeObj (setKey a k v) b := rfl

theorem mergeObj_append (a b c : Obj) :
    mergeObj a (b ++ c) = mergeObj (mergeObj a b) c :=
  List.foldl_append _ _ _ _

theorem getKey_mergeObj_of_not_mem {k : String} {b : Obj}
    (h : ∀ kv ∈ b, ¬(kv.1 = k)) (a : Obj) :
    getKey (mergeObj a b) k = getKey a k := by
  induction b generalizing a with
  | nil => rfl
  | cons kv b ih =>
    obtain ⟨k', v'⟩ := kv
    rw [mergeObj_cons]
    rw [ih (by intro kv' h1; exact h kv' (by simp [h1]))]
    exact getKey_setKey_ne (fun hk => h (k', v') (by simp) hk.symm) _ _

/-! Lemmas about one update step and the seed state. -/

theorem getKey_applyUpdate_client (st : Obj) (e : Event) :
    getKey (applyUpdate st e) "clientTimestamp" =
      some (Value.vDate e.clientTimestamp) := by
  unfold applyUpdate
  rw [mergeObj_append, mergeObj_cons, mergeObj_cons, mergeObj_nil]
  rw [getKey_setKey_ne (by decide)]
  exact getKey_setKey_self _ _ _

theorem getKey_applyUpdate_server (st : Obj) (e : Event) :
    getKey (applyUpdate st e) "serverTimestamp" =
      some (optDate e.serverTimestamp) := by
  unfold applyUpdate
  rw [mergeObj_append, mergeObj_cons, mergeObj_cons, mergeObj_nil]
  exact getKey_setKey_self _ _ _

theorem getKey_applyUpdate_of_ne {k : String} (st : Obj) (e : Event)
    (h1 : ¬(k = "clientTimestamp")) (h2 : ¬(k = "serverTimestamp"))
    (h3 : ∀ kv ∈ changesOf e, ¬(kv.1 = k)) :
    getKey (applyUpdate st e) k = getKey st k := by
  unfold applyUpdate
  rw [mergeObj_append, mergeObj_cons, mergeObj_cons, mergeObj_nil]
  rw [getKey_setKey_ne h2, getKey_setKey_ne h1]
  exact getKey_mergeObj_of_not_mem h3 st

theorem getKey_seedState_id (c : Event) (i : String) :
    getKey (seedState c i) "id" = some (Value.vStr i) := by
  unfold seedState
  rw [mergeObj_cons, mergeObj_cons, mergeObj_cons, mergeObj_nil]
  rw [getKey_setKey_ne (by decide), getKey_setKey_ne (by decide)]
  exact getKey_setKey_self _ _ _

theorem getKey_seedState_client (c : Event) (i : String) :
    getKey (seedState c i) "clientTimestamp" =
      some (Value.vDate c.clientTimestamp) := by
  unfold seedState
  rw [mergeObj_cons, mergeObj_cons, mergeObj_cons, mergeObj_nil]
  rw [getKey_setKey_ne (by decide)]
  exact getKey_setKey_self _ _ _

theorem getKey_seedState_server (c : Event) (i : String) :
    getKey (seedState c i) "serverTimestamp" =
      some (optDate c.serverTimestamp) := by
  unfold seedState
  rw [mergeObj_cons, mergeObj_cons, mergeObj_cons, mergeObj_nil]
  exact getKey_setKey_self _ _ _

theorem getKey_seedState_of_ne {k : String} (c : Event) (i : String)
    (h1 : ¬(k = "id")) (h2 : ¬(k = "clientTimestamp"))
    (h3 : ¬(k = "serverTimestamp")) :
    getKey (seedState c i) k = getKey c.data k := by
  unfold seedState
  rw [mergeObj_cons, mergeObj_cons, mergeObj_cons, mergeObj_nil]
  rw [getKey_setKey_ne h3, getKey_setKey_ne h2, getKey_setKey_ne h1]

/-! Lemmas about the update fold. -/

theorem getKey_foldl_applyUpdate_id {l : List Event}
    (h : ∀ e ∈ l, ∀ kv ∈ changesOf e, ¬(kv.1 = "id")) (st : Obj) :
    getKey (l.foldl applyUpdate st) "id" = getKey st "id" := by
  induction l generalizing st with
  | nil => rfl
  | cons e l ih =>
    rw [List.foldl_cons]
    rw [ih (by intro e' h1 kv h2; exact h e' (by simp [h1]) kv h2)]
    exact getKey_applyUpdate_of_ne st e (by decide) (by decide)
      (h e (by simp))

theorem getKey_foldl_applyUpdate_client_last {l : List Event} {u : Event}
    (h : l.getLast? = some u) (st : Obj) :
    getKey (l.foldl applyUpdate st) "clientTimestamp" =
      some (Value.vDate u.clientTimestamp) := by
  obtain ⟨ys, rfl⟩ := List.getLast?_eq_some_iff.mp h
  rw [List.foldl_append, List.foldl_cons, List.foldl_nil]
  exact getKey_applyUpdate_client _ _

theorem getKey_foldl_applyUpdate_server_last {l : List Event} {u : Event}
    (h : l.getLast? = some u) (st : Obj) :
    getKey (l.foldl applyUpdate st) "serverTimestamp" =
      some (optDate u.serverTimestamp) := by
  obtain ⟨ys, rfl⟩ := List.getLast?_eq_some_iff.mp h
  rw [List.foldl_append, List.foldl_cons, List.foldl_nil]
  exact getKey_applyUpdate_server _ _

/-! Inversion and evaluation lemmas for the reconstruction fold. -/

theorem getLatestEntityStateL_of_delete {events : List Event} (id : String)
    (h : ∃ e ∈ events, e.type = "delete") :
    getLatestEntityStateL events id = none := by
  obtain ⟨e, he, ht⟩ := h
  unfold getLatestEntityStateL
  have hne : events.isEmpty = false := by
    cases events with
    | nil => cases he
    | cons _ _ => rfl
  rw [hne]
  cases hf : events.find? (fun e => e.type = "create") with
  | none => simp
  | some c =>
    have hd : events.any (fun e => e.type = "delete") = true :=
      List.any_eq_true.mpr ⟨e, he, by simp [ht]⟩
    simp [hd]

theorem getLatestEntityStateL_eq_some {events : List Event} {id : String} {st : Obj}
    (h : getLatestEntityStateL events id = some st) :
    ∃ c, events.find? (fun e => e.type = "create") = some c ∧
      events.any (fun e => e.type = "delete") = false ∧
      st = ((events.filter (fun e => e.type = "update")).mergeSort eventLe).foldl
            applyUpdate (seedState c id) := by
  unfold getLatestEntityStateL at h
  by_cases he : events.isEmpty = true
  · rw [he] at h
    simp at h
  · rw [Bool.not_eq_true] at he
    rw [he] at h
    simp only [Bool.false_eq_true, if_false] at h
    cases hf : events.find? (fun e => e.type = "create") with
    | none => rw [hf] at h; simp at h
    | some c =>
      rw [hf] at h
      simp only at h
      by_cases hd : events.any (fun e => e.type = "delete") = true
      · rw [hd] at h; simp at h
      · rw [Bool.not_eq_true] at hd
        rw [hd] at h
        simp only [Bool.false_eq_true, if_false, Option.some.injEq] at h
        exact ⟨c, rfl, hd, h.symm⟩

/-! Lemmas about converter reads. -/

theorem forall₂_mem_left {α β : Type _} {R : α → β → Prop}
    {l1 : List α} {l2 : List β} (h : List.Forall₂ R l1 l2) :
    ∀ a ∈ l1, ∃ b ∈ l2, R a b := by
  induction h with
  | nil => intro a ha; cases ha
  | cons h1 _ ih =>
    intro a ha
    cases ha with
    | head => exact ⟨_, by simp, h1⟩
    | tail _ hmem =>
      obtain ⟨b, hb, hR⟩ := ih a hmem
      exact ⟨b, by simp [hb], hR⟩

theorem forall₂_mem_right {α β : Type _} {R : α → β → Prop}
    {l1 : List α} {l2 : List β} (h : List.Forall₂ R l1 l2) :
    ∀ b ∈ l2, ∃ a ∈ l1, R a b := by
  induction h with
  | nil => intro b hb; cases hb
  | cons h1 _ ih =>
    intro b hb
    cases hb with
    | head => exact ⟨_, by simp, h1⟩
    | tail _ hmem =>
      obtain ⟨a, ha, hR⟩ := ih b hmem
      exact ⟨a, by simp [ha], hR⟩

theorem map_eq_of_forall₂ {α β γ : Type _} {R : α → β → Prop}
    {l1 : List α} {l2 : List β} (h : List.Forall₂ R l1 l2)
    (f : α → γ) (g : β → γ) (hfg : ∀ a b, R a b → f a = g b) :
    l1.map f = l2.map g := by
  induction h with
  | nil => rfl
  | cons h1 _ ih => simp [hfg _ _ h1, ih]

theorem readEvents_parseAny (l : List Event) :
    readEvents parseAny l = Except.ok l := by
  induction l with
  | nil => rfl
  | cons e es ih => simp [readEvents, readEvent, parseAny, ih]

theorem readEvents_ok_forall₂ {parseData : Obj → Option Obj} :
    ∀ {l l1 : List Event}, readEvents parseData l = Except.ok l1 →
    List.Forall₂ (fun (e1 e : Event) =>
      e1.entityId = e.entityId ∧ e1.type = e.type ∧
      e1.clientTimestamp = e.clientTimestamp ∧
      e1.serverTimestamp = e.serverTimestamp ∧
      parseData e.data = some e1.data) l1 l := by
  intro l
  induction l with
  | nil =>
    intro l1 h
    unfold readEvents at h
    cases h
    exact List.Forall₂.nil
  | cons e es ih =>
    intro l1 h
    unfold readEvents at h
    cases hre : readEvent parseData e with
    | error msg => rw [hre] at h; cases h
    | ok e1 =>
      rw [hre] at h
      cases hres : readEvents parseData es with
      | error msg => rw [hres] at h; cases h
      | ok es1 =>
        rw [hres] at h
        cases h
        refine List.Forall₂.cons ?_ (ih hres)
        unfold readEvent at hre
        cases hp : parseData e.data with
        | none => rw [hp] at hre; cases hre
        | some d =>
          rw [hp] at hre
          cases hre
          exact ⟨rfl, rfl, rfl, rfl, rfl⟩

theorem readEvents_ok_of_all {parseData : Obj → Option Obj} :
    ∀ {l : List Event}, (∀ e ∈ l, (parseData e.data).isSome = true) →
    ∃ l1, readEvents parseData l = Except.ok l1 := by
  intro l
  induction l with
  | nil => intro _; exact ⟨[], rfl⟩
  | cons e es ih =>
    intro h
    obtain ⟨d, hd⟩ := Option.isSome_iff_exists.mp (h e (by simp))
    obtain ⟨es1, hes⟩ := ih (fun e1 he1 => h e1 (by simp [he1]))
    refine ⟨{ e with data := d } :: es1, ?_⟩
    simp [readEvents, readEvent, hd, hes]

/-- C2 (code bug): the reconstruction fold honours tombstones — the
concrete `[create, delete, update]` sequence folds to `none` — and the
facade's `findById` returns `None` under a fully permissive schema; but
under a plain object schema with required fields (the shape of the
application's own `CommandSchema`), the delete event's `{id}` payload
fails the read-time converter parse, so `findById` throws the
converter's error instead of yielding `None` as the claim states. -/
theorem claim_C2_tombstone_permanence :
    getLatestEntityStateL c2Events "e1" = none ∧
    findEntityById parseAny c2Events "e1" = Except.ok none ∧
    findEntityById parseAB c2bStore "e1" =
      Except.error "Event validation failed" := by
  refine ⟨?_, ?_, ?_⟩ <;>
    simp [c2Events, c2bStore, findEntityById, getLatestEntityState,
          getEntityEvents, readEvents, readEvent, parseAny, parseAB,
          getLatestEntityStateL, seedState, applyUpdate, mergeObj, setKey,
          getKey, changesOf, changesOfData, optDate, eventLe,
          List.mergeSort, List.filter, List.find?]

/-- C5: when reconstruction of an id resolves to `none` (never created
or tombstoned), both `update` and `delete` fail with `NotFoundError` and
leave the event log exactly as it was. -/
theorem claim_C5_notfound_atomicity (parseData : Obj → Option Obj)
    (store : List Event) (id : String) (changes : Obj) (now now' : Int)
    (sts sts' : Option Int)
    (h : findEntityById parseData store id = Except.ok none) :
    updateEntityById parseData store id changes now sts =
        (Except.error (RepoError.notFoundError id), store) ∧
    deleteEntityById parseData store id now' sts' =
        (Except.error (RepoError.notFoundError id), store) := by
  unfold updateEntityById deleteEntityById
  rw [h]
  exact ⟨rfl, rfl⟩

/-- C5 witness: `update`/`delete` of a never-created id on the empty log
fail with `NotFoundError` and leave the log empty. -/
theorem claim_C5_notfound_atomicity_witness :
    updateEntityById parseAny [] "missing-id" [("a", Value.vInt 1)] 1 none =
        (Except.error (RepoError.notFoundError "missing-id"), []) ∧
    deleteEntityById parseAny [] "missing-id" 2 none =
        (Except.error (RepoError.notFoundError "missing-id"), []) :=
  claim_C5_notfound_atomicity parseAny [] "missing-id" [("a", Value.vInt 1)]
    1 2 none none
    (by simp [findEntityById, getLatestEntityState, getEntityEvents,
              readEvents, getLatestEntityStateL, List.mergeSort])

/-- C6: `create` validates the payload against the declared schema before
any append: on invalid data it fails with `ValidationError` and the log
is unchanged; on valid data it appends exactly one `create` event
carrying the data under the generated entity id and returns that id. -/
theorem claim_C6_create_validates_before_write (valid : Obj → Bool)
    (store : List Event) (data : Obj) (entityId : String) (now : Int)
    (sts : Option Int) :
    (valid data = false →
      createNewEntity valid store data entityId now sts =
        (Except.error RepoError.validationError, store)) ∧
    (valid data = true →
      createNewEntity valid store data entityId now sts =
        (Except.ok entityId,
         store ++ [{ id := "", entityId := entityId, type := "create",
                     data := data, clientTimestamp := now,
                     serverTimestamp := sts }])) := by
  constructor
  · intro hv
    unfold createNewEntity
    rw [hv]
    rfl
  · intro hv
    unfold createNewEntity
    rw [hv]
    rfl

/-- C6 witness: on the empty log, a schema that accepts `{a:1}` leads to
a single appended `create` event and the returned id, while a schema
that rejects it leads to a `ValidationError` and an unchanged log. -/
theorem claim_C6_create_validates_before_write_witness :
    createNewEntity validAny [] [("a", Value.vInt 1)] "e1" 5 none =
        (Except.ok "e1",
         [{ id := "", entityId := "e1", type := "create",
            data := [("a", Value.vInt 1)], clientTimestamp := 5,
            serverTimestamp := none }]) ∧
    createNewEntity validNone [] [("a", Value.vInt 1)] "e1" 5 none =
        (Except.error RepoError.validationError, []) :=
  ⟨(claim_C6_create_validates_before_write validAny [] [("a", Value.vInt 1)]
      "e1" 5 none).2 rfl,
   (claim_C6_create_validates_before_write validNone [] [("a", Value.vInt 1)]
      "e1" 5 none).1 rfl⟩

/-- C4 (code bug): the create `{a:1,b:2}`, update `{a:5}`, update `{b:9}`
scenario.  Under a fully permissive schema the two partial updates
accumulate and `findById` yields `a = 5, b = 9` as the claim states; but
under the strip-mode object schema `z.object({a, b})` (the shape of the
application's own schema), the read-time parse strips the unknown
`changes` key from each update payload, the merge applies nothing, and
the same three facade calls leave `findById` at the original
`a = 1, b = 2`. -/
theorem claim_C4_update_accumulation :
    findEntityById parseAny c4Store "e1" =
      Except.ok (some
        [("a", Value.vInt 5), ("b", Value.vInt 9), ("id", Value.vStr "e1"),
         ("clientTimestamp", Value.vDate 3), ("serverTimestamp", Value.vNull)]) ∧
    findEntityById parseAB c4StoreStrict "e1" =
      Except.ok (some
        [("a", Value.vInt 1), ("b", Value.vInt 2), ("id", Value.vStr "e1"),
         ("clientTimestamp", Value.vDate 3), ("serverTimestamp", Value.vNull)]) := by
  constructor <;>
    simp [c4Store, c4StoreStrict, validAny, validOfParse, parseAny, parseAB,
          createNewEntity, createEntity, createEvent, updateEntityById,
          updateEntity, findEntityById, getLatestEntityState, getEntityEvents,
          readEvents, readEvent, getLatestEntityStateL, seedState, applyUpdate,
          mergeObj, setKey, getKey, changesOf, changesOfData, optDate, eventLe,
          List.mergeSort, List.filter, List.find?]

/-- C3: for any data valid under the declared schema (written as: the
write-side check passes and the read-side parse returns the data
unchanged), `create(data)` followed immediately by `findById` of the
returned (fresh) id yields a non-null entity whose fields away from
`id`/`clientTimestamp`/`serverTimestamp` equal those of `data`, together
with the generated id and the create call's two timestamps. -/
theorem claim_C3_roundtrip (valid : Obj → Bool) (parseData : Obj → Option Obj)
    (store : List Event) (data : Obj) (newId : String) (now : Int)
    (sts : Option Int)
    (hv : valid data = true)
    (hparse : parseData data = some data)
    (hfresh : ∀ e ∈ store, ¬(e.entityId = newId)) :
    (createNewEntity valid store data newId now sts).1 = Except.ok newId ∧
    ∃ st, findEntityById parseData
        (createNewEntity valid store data newId now sts).2 newId
        = Except.ok (some st) ∧
      getKey st "id" = some (Value.vStr newId) ∧
      getKey st "clientTimestamp" = some (Value.vDate now) ∧
      getKey st "serverTimestamp" = some (optDate sts) ∧
      ∀ k, ¬(k = "id") → ¬(k = "clientTimestamp") → ¬(k = "serverTimestamp") →
        getKey st k = getKey data k := by
  have hrun : createNewEntity valid store data newId now sts =
      (Except.ok newId,
       store ++ [{ id := "", entityId := newId, type := "create", data := data,
                   clientTimestamp := now, serverTimestamp := sts }]) := by
    unfold createNewEntity createEntity createEvent
    rw [hv]
    simp
  rw [hrun]
  refine ⟨rfl, ?_⟩
  set ev : Event := { id := "", entityId := newId, type := "create", data := data,
                      clientTimestamp := now, serverTimestamp := sts } with hev
  have h1 : (((store ++ [ev]).filter
      (fun e => e.entityId = newId)).mergeSort eventLe) = [ev] := by
    rw [List.filter_append]
    rw [List.filter_eq_nil_iff.mpr (by intro e he; simpa using hfresh e he)]
    simp [hev, List.mergeSort_singleton]
  have h2 : readEvents parseData [ev] = Except.ok [ev] := by
    simp [readEvents, readEvent, hev, hparse]
  have h3 : getLatestEntityStateL [ev] newId = some (seedState ev newId) := by
    unfold getLatestEntityStateL
    simp [hev, List.mergeSort_nil]
  refine ⟨seedState ev newId, ?_, getKey_seedState_id ev newId,
    getKey_seedState_client ev newId, getKey_seedState_server ev newId, ?_⟩
  · simp only [findEntityById, getLatestEntityState, getEntityEvents, h1, h2, h3]
  · intro k hk1 hk2 hk3
    exact getKey_seedState_of_ne ev newId hk1 hk2 hk3

/-- C3 witness: on the empty log, creating `{a:1}` with an accepting
schema and reading the fresh id back yields the data plus id and the two
timestamps. -/
theorem claim_C3_roundtrip_witness :
    (createNewEntity validAny [] [("a", Value.vInt 1)] "e1" 4 (some 6)).1 =
        Except.ok "e1" ∧
    ∃ st, findEntityById parseAny
        (createNewEntity validAny [] [("a", Value.vInt 1)] "e1" 4 (some 6)).2 "e1"
        = Except.ok (some st) ∧
      getKey st "id" = some (Value.vStr "e1") ∧
      getKey st "clientTimestamp" = some (Value.vDate 4) ∧
      getKey st "serverTimestamp" = some (optDate (some 6)) ∧
      ∀ k, ¬(k = "id") → ¬(k = "clientTimestamp") → ¬(k = "serverTimestamp") →
        getKey st k = getKey [("a", Value.vInt 1)] k :=
  claim_C3_roundtrip validAny parseAny [] [("a", Value.vInt 1)] "e1" 4 (some 6)
    rfl rfl (by intro e he; cases he)

/-- C9 counterexample: an update event whose `changes` object itself
carries an `id` field overwrites the seeded id (the changes survive the
read under a permissive declared schema), so `findById "e1"` returns a
non-null entity whose `id` field is `"rogue"`, not the queried `"e1"`:
the unconditional id invariant fails. -/
theorem claim_C9_id_invariant_counterexample :
    findEntityById parseAny c9Store "e1" =
      Except.ok (some
        [("id", Value.vStr "rogue"), ("clientTimestamp", Value.vDate 2),
         ("serverTimestamp", Value.vNull)]) ∧
    ¬(("rogue" : String) = "e1") := by
  constructor
  · simp [c9Store, findEntityById, getLatestEntityState, getEntityEvents,
          readEvents, readEvent, parseAny, getLatestEntityStateL, seedState,
          applyUpdate, mergeObj, setKey, getKey, changesOf, changesOfData,
          optDate, eventLe, List.mergeSort, List.filter, List.find?]
  · decide

/-- C9 (amended): whenever `findById(id)` resolves to a non-null entity
and no `update` event's `changes` object (as the declared schema's parse
returns it) contains an `id` field, the entity's `id` equals the queried
id — in particular the id inside a create event's data payload never
leaks, because the seed writes `id = entityId` after spreading the
create event's data. -/
theorem claim_C9_amended_id_invariant (parseData : Obj → Option Obj)
    (store : List Event) (id : String) (st : Obj)
    (hupd : ∀ e ∈ store, e.type = "update" →
      ∀ d, parseData e.data = some d → ∀ kv ∈ changesOfData d, ¬(kv.1 = "id"))
    (h : findEntityById parseData store id = Except.ok (some st)) :
    getKey st "id" = some (Value.vStr id) := by
  unfold findEntityById getLatestEntityState at h
  cases hevs : getEntityEvents parseData store id with
  | error msg => rw [hevs] at h; cases h
  | ok evs =>
    rw [hevs] at h
    simp only [Except.ok.injEq] at h
    obtain ⟨c, hf, hd, hst⟩ := getLatestEntityStateL_eq_some h
    subst hst
    rw [getKey_foldl_applyUpdate_id, getKey_seedState_id]
    intro e1 he1 kv hkv
    have he2 := List.mem_filter.mp (List.mem_mergeSort.mp he1)
    unfold getEntityEvents at hevs
    have hF := readEvents_ok_forall₂ hevs
    obtain ⟨e, hemem, hR⟩ := forall₂_mem_left hF e1 he2.1
    have hestore : e ∈ store :=
      (List.mem_filter.mp (List.mem_mergeSort.mp hemem)).1
    have h1type : e1.type = "update" := by simpa using he2.2
    have htype : e.type = "update" := by rw [← hR.2.1]; exact h1type
    exact hupd e hestore htype e1.data hR.2.2.2.2 kv hkv

/-- C9 amended witness: create `{a:1}` then update with changes `{a:5}`
under a permissive schema; the reconstructed state carries `id = "e1"`,
the queried id. -/
theorem claim_C9_amended_id_invariant_witness :
    getKey [("a", Value.vInt 5), ("id", Value.vStr "e1"),
            ("clientTimestamp", Value.vDate 2), ("serverTimestamp", Value.vNull)]
      "id" = some (Value.vStr "e1") :=
  claim_C9_amended_id_invariant parseAny c9wStore "e1" _
    (by
      intro e he ht d hd kv hkv
      simp only [parseAny, Option.some.injEq] at hd
      subst hd
      simp only [c9wStore, List.mem_cons, List.not_mem_nil, or_false] at he
      rcases he with rfl | rfl
      · simp at ht
      · simp only [changesOfData, getKey, List.find?] at hkv
        simp at hkv
        subst hkv
        decide)
    (by simp [c9wStore, findEntityById, getLatestEntityState, getEntityEvents,
              readEvents, readEvent, parseAny, getLatestEntityStateL, seedState,
              applyUpdate, mergeObj, setKey, getKey, changesOf, changesOfData,
              optDate, eventLe, List.mergeSort, List.filter, List.find?])

/-- C1: reconstruction is the deterministic fold the spec describes: an
empty sequence or a sequence with no `create` event yields `none`;
otherwise (in the absence of a delete event, claim C2's case) the result
equals the spec's fold — seed from the first create event's data plus
`id = entityId` and its timestamps, then shallow-merge each update
event's changes in ascending `clientTimestamp` order, overwriting the
two timestamp fields each time — and hence the final state's timestamps
are those of the last update applied, or of the create event when no
update exists. -/
theorem claim_C1_reconstruction_fold (events : List Event) (id : String) :
    (events = [] → getLatestEntityStateL events id = none) ∧
    (events.find? (fun e => e.type = "create") = none →
      getLatestEntityStateL events id = none) ∧
    ((∀ e ∈ events, ¬(e.type = "delete")) →
      getLatestEntityStateL events id = specStateReconstruction events id ∧
      ∀ st, getLatestEntityStateL events id = some st →
        (∀ u, ((events.filter (fun e => e.type = "update")).mergeSort
            eventLe).getLast? = some u →
          getKey st "clientTimestamp" = some (Value.vDate u.clientTimestamp) ∧
          getKey st "serverTimestamp" = some (optDate u.serverTimestamp)) ∧
        ((events.filter (fun e => e.type = "update")).mergeSort eventLe = [] →
          ∀ c, events.find? (fun e => e.type = "create") = some c →
            getKey st "clientTimestamp" = some (Value.vDate c.clientTimestamp) ∧
            getKey st "serverTimestamp" = some (optDate c.serverTimestamp))) := by
  have happly : applyUpdate = fun st e =>
      mergeObj (mergeObj st (changesOf e))
        [("clientTimestamp", Value.vDate e.clientTimestamp),
         ("serverTimestamp", optDate e.serverTimestamp)] := by
    funext st e
    unfold applyUpdate
    exact mergeObj_append st (changesOf e)
      [("clientTimestamp", Value.vDate e.clientTimestamp),
       ("serverTimestamp", optDate e.serverTimestamp)]
  refine ⟨?_, ?_, ?_⟩
  · intro he
    subst he
    rfl
  · intro hf
    unfold getLatestEntityStateL
    rw [hf]
    simp
  · intro hnodel
    have hd : events.any (fun e => e.type = "delete") = false := by
      rw [Bool.eq_false_iff]
      intro hcon
      obtain ⟨e, he, ht⟩ := List.any_eq_true.mp hcon
      exact hnodel e he (by simpa using ht)
    constructor
    · unfold getLatestEntityStateL specStateReconstruction
      cases events with
      | nil => rfl
      | cons e0 rest =>
        simp only [List.isEmpty_cons, Bool.false_eq_true, if_false]
        cases hf : (e0 :: rest).find? (fun e => e.type = "create") with
        | none => rfl
        | some c =>
          simp only [hd, Bool.false_eq_true, if_false, Option.some.injEq]
          rw [happly]
          rfl
    · intro st hst
      obtain ⟨c, hf, _, hrep⟩ := getLatestEntityStateL_eq_some hst
      constructor
      · intro u hu
        subst hrep
        exact ⟨getKey_foldl_applyUpdate_client_last hu _,
               getKey_foldl_applyUpdate_server_last hu _⟩
      · intro hemp c' hc'
        rw [hf] at hc'
        cases hc'
        subst hrep
        rw [hemp, List.foldl_nil]
        exact ⟨getKey_seedState_client _ _, getKey_seedState_server _ _⟩

/-- C1 witness: on a concrete ordered create-then-update sequence the
code fold and the spec fold agree. -/
theorem claim_C1_reconstruction_fold_witness :
    getLatestEntityStateL c1Events "e1" = specStateReconstruction c1Events "e1" :=
  (((claim_C1_reconstruction_fold c1Events "e1").2.2 (by decide)).1)

/-! Lemmas about the enumeration in `findAllEntities`. -/

theorem foldlE_collect_eq_filterMap (parseData : Obj → Option Obj)
    (store : List Event) (ids : List String) (acc : List Obj)
    (hok : ∀ id, ∃ r, findEntityById parseData store id = Except.ok r) :
    ids.foldl (fun acc1 id =>
      match acc1 with
      | Except.error msg => Except.error msg
      | Except.ok results =>
        match findEntityById parseData store id with
        | Except.error msg => Except.error msg
        | Except.ok (some entity) => Except.ok (results ++ [entity])
        | Except.ok none => Except.ok results) (Except.ok acc) =
    Except.ok (acc ++ ids.filterMap (fun id =>
      match findEntityById parseData store id with
      | Except.ok (some entity) => some entity
      | _ => none)) := by
  induction ids generalizing acc with
  | nil => simp
  | cons a ids ih =>
    rw [List.foldl_cons, List.filterMap_cons]
    obtain ⟨r, hr⟩ := hok a
    cases r with
    | none => simp only [hr]; rw [ih]
    | some entity => simp only [hr]; rw [ih]; simp

theorem getLatestEntityStateL_congr {ev1 ev2 : List Event} (id : String)
    (hne : ev1.isEmpty = ev2.isEmpty)
    (hfind : ev1.find? (fun e => e.type = "create") =
      ev2.find? (fun e => e.type = "create"))
    (hfilt : ev1.filter (fun e => e.type = "update") =
      ev2.filter (fun e => e.type = "update"))
    (hdel : ev1.any (fun e => e.type = "delete") =
      ev2.any (fun e => e.type = "delete")) :
    getLatestEntityStateL ev1 id = getLatestEntityStateL ev2 id := by
  unfold getLatestEntityStateL
  rw [hne, hfind, hfilt, hdel]

/-- C10 counterexample: a store holding one `create` and one `update`
event for a single entity makes that entity appear twice in `findAll`
(once per event, not once per create event), because the enumeration
query has no type filter; under a permissive schema every read parses
and the program completes with two identical copies where the claim's
"once per create event" predicts a single appearance. -/
theorem claim_C10_findall_counterexample :
    findAllEntities parseAny c10Store =
      Except.ok
        [[("a", Value.vInt 1), ("id", Value.vStr "e1"),
          ("clientTimestamp", Value.vDate 2), ("serverTimestamp", Value.vNull)],
         [("a", Value.vInt 1), ("id", Value.vStr "e1"),
          ("clientTimestamp", Value.vDate 2), ("serverTimestamp", Value.vNull)]] ∧
    (c10Store.filter (fun e => e.type = "create")).length = 1 := by
  constructor <;>
    simp [c10Store, findAllEntities, findEntityById, getLatestEntityState,
          getEntityEvents, readEvents, readEvent, parseAny,
          getLatestEntityStateL, seedState, applyUpdate, mergeObj, setKey,
          getKey, changesOf, changesOfData, optDate, eventLe,
          List.mergeSort, List.filter, List.find?]

/-- C10 (amended): `findAll` first reads every event of the shared event
collection through the entity-schema converter — a parse failure
anywhere propagates — and then enumerates entity ids by iterating over
every event regardless of its type, without deduplicating entityIds: when
all reads parse, an entity appears once per event referencing it whose
reconstruction is non-null; and reconstruction seeds each copy from only
the first `create` event of the ordered sequence, ignoring the data of
every later `create` event. -/
theorem claim_C10_amended_findall :
    (∀ parseData : Obj → Option Obj, ∀ store : List Event, ∀ msg : String,
      readEvents parseData store = Except.error msg →
      findAllEntities parseData store = Except.error msg) ∧
    (∀ parseData : Obj → Option Obj, ∀ store allEv : List Event,
      readEvents parseData store = Except.ok allEv →
      findAllEntities parseData store =
        Except.ok ((store.map (fun e => e.entityId)).filterMap
          (fun id => match findEntityById parseData store id with
            | Except.ok (some entity) => some entity
            | _ => none))) ∧
    (∀ pre mid post : List Event, ∀ c1 c2 : Event, ∀ d : Obj, ∀ id : String,
      (∀ e ∈ pre, ¬(e.type = "create")) → c1.type = "create" →
      c2.type = "create" →
      getLatestEntityStateL (pre ++ c1 :: mid ++ c2 :: post) id =
        getLatestEntityStateL (pre ++ c1 :: mid ++ { c2 with data := d } :: post)
          id) := by
  refine ⟨?_, ?_, ?_⟩
  · intro parseData store msg hread
    simp only [findAllEntities, hread]
  · intro parseData store allEv hread
    simp only [findAllEntities, hread]
    have hF := readEvents_ok_forall₂ hread
    have hmap : allEv.map (fun e => e.entityId) =
        store.map (fun e => e.entityId) :=
      map_eq_of_forall₂ hF _ _ (fun a b hR => hR.1)
    rw [hmap]
    have hok : ∀ id, ∃ r, findEntityById parseData store id = Except.ok r := by
      intro id
      have hmem : ∀ e ∈ (store.filter
          (fun e => e.entityId = id)).mergeSort eventLe,
          (parseData e.data).isSome = true := by
        intro e he
        have hes : e ∈ store := (List.mem_filter.mp (List.mem_mergeSort.mp he)).1
        obtain ⟨e1, _, hR⟩ := forall₂_mem_right hF e hes
        simp [hR.2.2.2.2]
      obtain ⟨evs, hevs⟩ := readEvents_ok_of_all hmem
      refine ⟨getLatestEntityStateL evs id, ?_⟩
      unfold findEntityById getLatestEntityState getEntityEvents
      rw [hevs]
    rw [foldlE_collect_eq_filterMap parseData store
      (store.map (fun e => e.entityId)) [] hok, List.nil_append]
  · intro pre mid post c1 c2 d id hpre hc1 hc2
    have hty : ({ c2 with data := d } : Event).type = c2.type := rfl
    apply getLatestEntityStateL_congr
    · cases pre <;> rfl
    · have hfp : pre.find? (fun e => decide (e.type = "create")) = none :=
        List.find?_eq_none.mpr (by intro e he; simpa using hpre e he)
      simp [List.find?_append, List.find?_cons, hfp, hc1]
    · simp only [List.filter_append, List.filter_cons, hty, hc1, hc2]
      simp
    · simp only [List.any_append, List.any_cons, hty]

/-- C10 amended witness: the enumeration refinement evaluated on the
concrete two-event store under a permissive schema, and insensitivity of
reconstruction to the data of a second `create` event placed after the
first one. -/
theorem claim_C10_amended_findall_witness :
    findAllEntities parseAny c10Store =
      Except.ok ((c10Store.map (fun e => e.entityId)).filterMap
        (fun id => match findEntityById parseAny c10Store id with
          | Except.ok (some entity) => some entity
          | _ => none)) ∧
    getLatestEntityStateL ([] ++ cA :: [] ++ cB :: []) "e1" =
      getLatestEntityStateL
        ([] ++ cA :: [] ++ { cB with data := [("a", Value.vInt 9)] } :: [])
        "e1" :=
  ⟨claim_C10_amended_findall.2.1 parseAny c10Store c10Store
     (readEvents_parseAny c10Store),
   claim_C10_amended_findall.2.2 [] [] [] cA cB [("a", Value.vInt 9)]
     "e1" (by intro e he; cases he) rfl rfl⟩

/-- C7 (code bug): three successful facade writes against one entity —
create `{a:1,b:2}`, update `{a:2}`, delete — succeed under both the
fully permissive schema and the strip-mode object schema
`z.object({a, b})`, appending the same three typed events in ascending
client-timestamp order; under the permissive schema `getHistory` returns
exactly those three events, but under the strip-mode schema (the shape
of the application's own `CommandSchema`) `getHistory` throws the
converter's error on the delete event's `{id}` payload instead of
returning the three events the claim asserts. -/
theorem claim_C7_history_completeness :
    runOps validAny parseAny [] c7Ops = Except.ok c7Final ∧
    getEntityHistory parseAny c7Final "e1" = Except.ok c7Final ∧
    c7Final.map (fun e => e.type) = ["create", "update", "delete"] ∧
    c7Final.map (fun e => e.entityId) = ["e1", "e1", "e1"] ∧
    c7Final.map (fun e => e.clientTimestamp) = [1, 2, 3] ∧
    runOps (validOfParse parseAB) parseAB [] c7Ops = Except.ok c7Final ∧
    getEntityHistory parseAB c7Final "e1" =
      Except.error "Event validation failed" := by
  refine ⟨?_, ?_, ?_, ?_, ?_, ?_, ?_⟩ <;>
    simp [c7Ops, c7Final, runOps, runOp, validAny, validOfParse, parseAny,
          parseAB, createNewEntity, createEntity, createEvent, updateEntityById,
          updateEntity, deleteEntityById, deleteEntity, findEntityById,
          getLatestEntityState, getEntityEvents, getEntityHistory, readEvents,
          readEvent, getLatestEntityStateL, seedState, applyUpdate, mergeObj,
          setKey, getKey, changesOf, changesOfData, optDate, eventLe,
          List.mergeSort, List.filter, List.find?]

/-! Lemmas about the converter layer. -/

mutual

theorem hasTimestamp_convertTimestamps : ∀ v : Value,
    hasTimestamp (convertTimestamps v) = false
  | Value.vTimestamp _ => rfl
  | Value.vArr xs => hasTimestampList_convertTimestampsList xs
  | Value.vObj fs => hasTimestampFields_convertTimestampsFields fs
  | Value.vNull => rfl
  | Value.vBool _ => rfl
  | Value.vInt _ => rfl
  | Value.vStr _ => rfl
  | Value.vDate _ => rfl

theorem hasTimestampList_convertTimestampsList : ∀ xs : List Value,
    hasTimestampList (convertTimestampsList xs) = false
  | [] => rfl
  | x :: xs => by
    show (hasTimestamp (convertTimestamps x) ||
      hasTimestampList (convertTimestampsList xs)) = false
    rw [hasTimestamp_convertTimestamps x,
        hasTimestampList_convertTimestampsList xs]
    rfl

theorem hasTimestampFields_convertTimestampsFields :
    ∀ fs : List (String × Value),
    hasTimestampFields (convertTimestampsFields fs) = false
  | [] => rfl
  | (k, v) :: fs => by
    show (hasTimestamp (convertTimestamps v) ||
      hasTimestampFields (convertTimestampsFields fs)) = false
    rw [hasTimestamp_convertTimestamps v,
        hasTimestampFields_convertTimestampsFields fs]
    rfl

end

/-- C8 counterexample: a stored entity record with none of the declared
schema's fields (here a schema requiring a string `name`) is returned
successfully by the entity read path instead of raising a validation
error, although its shape does not match the declared schema. -/
theorem claim_C8_read_validation_counterexample :
    fromFirestoreDoc requiresName c8Raw "d1" =
      Except.ok [("serverTimestamp", Value.vNull),
                 ("clientTimestamp", Value.vDate 5), ("id", Value.vStr "d1")] ∧
    requiresName [("serverTimestamp", Value.vNull),
                  ("clientTimestamp", Value.vDate 5), ("id", Value.vStr "d1")]
      = false := by
  constructor <;> rfl

/-- C8 (amended): the read path recursively converts every storage
timestamp (however nested) to the portable date type and merges in the
assigned document id; the event converter additionally parses the `data`
payload with the declared schema and fails — with an error that
propagates to the caller — whenever the payload does not parse; the
entity converter, however, validates only the envelope fields `id`,
`serverTimestamp` and `clientTimestamp` and passes the declared schema's
own fields through unvalidated. -/
theorem claim_C8_amended_read_validation :
    (∀ v : Value, hasTimestamp (convertTimestamps v) = false) ∧
    (∀ schemaValid : Obj → Bool, ∀ raw : Obj, ∀ docId : String, ∀ out : Obj,
      fromFirestoreDoc schemaValid raw docId = Except.ok out →
      out = cleanedRecord raw docId ∧
      getKey out "id" = some (Value.vStr docId) ∧
      isNullableDateV (getKey out "serverTimestamp") = true ∧
      isDateV (getKey out "clientTimestamp") = true) ∧
    (∀ parseData : Value → Option Value, ∀ raw : Obj, ∀ docId : String,
      (getKey (cleanedRecord raw docId) "data").bind parseData = none →
      fromFirestoreEvent parseData raw docId =
        Except.error "Event validation failed") := by
  refine ⟨hasTimestamp_convertTimestamps, ?_, ?_⟩
  · intro schemaValid raw docId out h
    unfold fromFirestoreDoc at h
    split at h
    · rename_i hcond
      cases h
      rw [Bool.and_eq_true, Bool.and_eq_true] at hcond
      refine ⟨rfl, ?_, hcond.1.2, hcond.2⟩
      unfold cleanedRecord
      rw [getKey_setKey_self]
    · cases h
  · intro parseData raw docId h
    unfold fromFirestoreEvent
    rw [h]
    split <;> simp_all

/-- C8 amended witness: a nested timestamp is converted away, and the
event converter rejects a record whose `data` payload fails the declared
schema's parse. -/
theorem claim_C8_amended_read_validation_witness :
    hasTimestamp (convertTimestamps (Value.vObj [("t", Value.vTimestamp 3)]))
      = false ∧
    fromFirestoreEvent (fun _ => none) c8Raw "d1" =
      Except.error "Event validation failed" :=
  ⟨claim_C8_amended_read_validation.1 _,
   claim_C8_amended_read_validation.2.2 (fun _ => none) c8Raw "d1" rfl⟩

end WebShell
